import Mathlib

/-!
Shallow embedding of the SuperClaude MCP installer
(`setup/components/mcp.py` and `setup/components/mcp_docs.py`).

External state (the host CLI, the package managers, the filesystem and the
persisted metadata store) is modelled by an explicit environment of boolean
oracles; every external invocation the Python code performs is recorded as an
`Effect` so that frame properties ("no mutating process is invoked") can be
stated.  Pure helpers (name normalisation, list merging, CLI-output parsing)
are translated function by function from the source.
-/

namespace SuperClaude

/-- Python `str.lower()` restricted to the ASCII case mapping used by the
server names handled here: lowercase every character. -/
def pyLower (s : String) : String := String.mk (s.data.map Char.toLower)

/-- Python `str.strip()`: drop leading and trailing whitespace.  Implemented
structurally over the character list (rather than with `String.trim`) so
that concrete instances evaluate inside the kernel. -/
def pyStrip (s : String) : String :=
  String.mk
    (((s.data.dropWhile Char.isWhitespace).reverse.dropWhile
        Char.isWhitespace).reverse)

/-- Python `str.startswith`. -/
def pyStartsWith (s pre : String) : Bool := pre.data.isPrefixOf s.data

/-- One entry of the static server registry `self.mcp_servers`
(mcp.py lines 28-80).  Fields absent from a dict entry are `none`. -/
structure ServerInfo where
  name : String
  npmPackage : Option String := none
  installMethod : Option String := none
  installCommand : Option String := none
  runCommand : Option String := none
  required : Bool := false
  apiKeyEnv : Option String := none
deriving DecidableEq, Repr

/-- The static server registry `self.mcp_servers` (mcp.py lines 28-80),
as an association list in Python dict insertion order. -/
def mcp_servers : List (String × ServerInfo) :=
  [ ("sequential-thinking",
      { name := "sequential-thinking"
        npmPackage := some "@modelcontextprotocol/server-sequential-thinking"
        required := true }),
    ("context7",
      { name := "context7"
        npmPackage := some "@upstash/context7-mcp"
        required := true }),
    ("magic",
      { name := "magic"
        npmPackage := some "@21st-dev/magic"
        apiKeyEnv := some "TWENTYFIRST_API_KEY" }),
    ("playwright",
      { name := "playwright"
        npmPackage := some "@playwright/mcp@latest" }),
    ("serena",
      { name := "serena"
        installMethod := some "github"
        installCommand := some "uvx --from git+https://github.com/oraios/serena serena --help"
        runCommand := some "uvx --from git+https://github.com/oraios/serena serena start-mcp-server --context ide-assistant" }),
    ("morphllm-fast-apply",
      { name := "morphllm-fast-apply"
        npmPackage := some "@morph-llm/morph-fast-apply"
        apiKeyEnv := some "MORPH_API_KEY" }),
    ("tavily",
      { name := "tavily"
        installMethod := some "npm"
        installCommand := some "npx -y tavily-mcp@0.1.2"
        apiKeyEnv := some "TAVILY_API_KEY" }) ]

/-- The registry's key set (`self.mcp_servers` keys, in order). -/
def mcpServerKeys : List String := mcp_servers.map Prod.fst

/-- The `name_mappings` table of `_normalize_server_name`
(mcp.py lines 502-512). -/
def name_mappings : List (String × String) :=
  [ ("context7", "context7"),
    ("sequential-thinking", "sequential-thinking"),
    ("sequential", "sequential-thinking"),
    ("magic", "magic"),
    ("playwright", "playwright"),
    ("serena", "serena"),
    ("morphllm", "morphllm-fast-apply"),
    ("morphllm-fast-apply", "morphllm-fast-apply"),
    ("morph", "morphllm-fast-apply") ]

/-- `_normalize_server_name` (mcp.py lines 494-514): falsy input yields
`None`; otherwise lowercase, strip, and look the result up in
`name_mappings` (`dict.get` yields `None` on a miss). -/
def normalize_server_name (server_name : String) : Option String :=
  if server_name = "" then none
  else List.lookup (pyStrip (pyLower server_name)) name_mappings

/-- `_merge_server_lists` (mcp.py lines 516-537): union the three lists as a
set, then keep only names that are registry keys.  Python iterates a `set`,
whose order is unspecified; the embedding fixes first-occurrence order, and
all theorems about the merge are stated at the level of the element set. -/
def mergeServerLists (existing selected previous : List String) : List String :=
  ((existing ++ selected ++ previous).dedup).filter
    (fun s => mcpServerKeys.contains s)

/-- `_detect_existing_mcp_servers_from_config` (mcp.py lines 415-457),
given the key list of the config file's `mcpServers` object (a missing or
unparsable config yields the empty key list): normalise each key and keep
it when the result is truthy and a registry key. -/
def detect_from_config (configKeys : List String) : List String :=
  configKeys.filterMap (fun k =>
    match normalize_server_name k with
    | some n => if n != "" && mcpServerKeys.contains n then some n else none
    | none => none)

/-- Python `line.split()[0] if line.split() else ""`: first
whitespace-delimited token of a line, or the empty string. -/
def firstToken (line : String) : String :=
  match (line.split Char.isWhitespace).filter (fun t => t ≠ "") with
  | [] => ""
  | t :: _ => t

/-- `_detect_existing_mcp_servers_from_cli` (mcp.py lines 459-492), given the
captured stdout of `claude mcp list` (a non-zero exit or timeout is modelled
by the caller passing no output at all): split into lines; per line strip and
lowercase, skip empty lines and lines starting with `#` or `no`; normalise
the first token and keep registry keys. -/
def detect_from_cli (stdout : String) : List String :=
  ((pyStrip stdout).splitOn "\n").filterMap (fun rawLine =>
    if pyLower (pyStrip rawLine) != ""
        && !(pyStartsWith (pyLower (pyStrip rawLine)) "#")
        && !(pyStartsWith (pyLower (pyStrip rawLine)) "no") then
      match normalize_server_name (firstToken (pyLower (pyStrip rawLine))) with
      | some n => if n != "" && mcpServerKeys.contains n then some n else none
      | none => none
    else none)

/-- One external action performed by the installer.  `listQuery` is
`claude mcp list` (read-only); `versionProbe t` is `t --version` (read-only);
`runInstall c` runs the install directive `c` via a package manager /
checkout; `claudeAdd n` is `claude mcp add -s user -- n ...`;
`claudeRemove n` is `claude mcp remove n`; `metadataWrite` is a write to the
persisted metadata store (not an external process). -/
inductive Effect where
  | listQuery : Effect
  | versionProbe : String → Effect
  | runInstall : String → Effect
  | claudeAdd : String → Effect
  | claudeRemove : String → Effect
  | metadataWrite : Effect
deriving DecidableEq, Repr

/-- Whether an effect is an external process that mutates state
(a package-manager install directive or a host-CLI add/remove). -/
def Effect.mutating : Effect → Bool
  | .runInstall _ => true
  | .claudeAdd _ => true
  | .claudeRemove _ => true
  | _ => false

/-- Whether an effect invokes an external process at all. -/
def Effect.isProcess : Effect → Bool
  | .metadataWrite => false
  | _ => true

/-- The external world as observed by one run: outcomes of the external
processes the installer may invoke, contents of the probed files, and the
persisted metadata it reads.  Each field abstracts one fallible external
interaction of mcp.py. -/
structure Env where
  /-- `_check_mcp_server_installed name`: case-insensitive search of the
  `claude mcp list` output (mcp.py lines 393-413). -/
  installed : String → Bool
  /-- `uv --version` succeeds (mcp.py lines 240-252). -/
  uvAvailable : Bool
  /-- `uvx --version` succeeds (mcp.py lines 331-343). -/
  uvxAvailable : Bool
  /-- Running the given install directive exits 0 (mcp.py lines 262-267 /
  353-358). -/
  runInstallCmdOk : String → Bool
  /-- `claude mcp add -s user -- name ...` exits 0 for the given server
  (mcp.py lines 283-288 / 367-372 / 590-609). -/
  claudeAddOk : String → Bool
  /-- `claude mcp remove name` exits 0 (mcp.py lines 638-643). -/
  claudeRemoveOk : String → Bool
  /-- `validate_prerequisites` finds node 18+, claude and npm
  (mcp.py lines 120-196; a missing uv is only a warning). -/
  prereqOk : Bool
  /-- `_post_install` metadata update succeeds (mcp.py lines 755-774). -/
  postInstallOk : Bool
  /-- Key list of the `mcpServers` object of the first Claude Desktop config
  file found; `[]` when no config exists or it cannot be parsed
  (mcp.py lines 415-457). -/
  configKeys : List String
  /-- `claude mcp list` succeeded during detection (mcp.py lines 464-473). -/
  cliListOk : Bool
  /-- Captured stdout of `claude mcp list` during detection. -/
  cliListOutput : String
  /-- `self.settings_manager.get_metadata_setting("mcp.servers", [])`
  (mcp.py line 681). -/
  previousServers : List String
  /-- `get_component_version("mcp")` (mcp.py line 818). -/
  storedVersion : Option String
  /-- `__version__` (read from the VERSION file at import time). -/
  version : String

/-- The caller-supplied configuration dict (the keys mcp.py reads). -/
structure Config where
  dryRun : Bool
  selectedServers : List String

/-- `_install_uv_mcp_server` (mcp.py lines 219-307): needs an install and a
run command; short-circuits when already installed; requires `uv`; in
dry-run reports success after those checks; otherwise runs the install
directive and then registers with the host CLI, both of which must
succeed. -/
def install_uv_mcp_server (env : Env) (info : ServerInfo) (config : Config) :
    Bool × List Effect :=
  match info.installCommand, info.runCommand with
  | none, _ => (false, [])
  | some _, none => (false, [])
  | some ic, some _ =>
    if env.installed info.name then (true, [.listQuery])
    else if ¬ env.uvAvailable then (false, [.listQuery, .versionProbe "uv"])
    else if config.dryRun then (true, [.listQuery, .versionProbe "uv"])
    else if env.runInstallCmdOk ic then
      (env.claudeAddOk info.name,
        [.listQuery, .versionProbe "uv", .runInstall ic, .claudeAdd info.name])
    else (false, [.listQuery, .versionProbe "uv", .runInstall ic])

/-- `_install_github_mcp_server` (mcp.py lines 310-391): same shape as the
uv strategy but probing `uvx`. -/
def install_github_mcp_server (env : Env) (info : ServerInfo) (config : Config) :
    Bool × List Effect :=
  match info.installCommand, info.runCommand with
  | none, _ => (false, [])
  | some _, none => (false, [])
  | some ic, some _ =>
    if env.installed info.name then (true, [.listQuery])
    else if ¬ env.uvxAvailable then (false, [.listQuery, .versionProbe "uvx"])
    else if config.dryRun then (true, [.listQuery, .versionProbe "uvx"])
    else if env.runInstallCmdOk ic then
      (env.claudeAddOk info.name,
        [.listQuery, .versionProbe "uvx", .runInstall ic, .claudeAdd info.name])
    else (false, [.listQuery, .versionProbe "uvx", .runInstall ic])

/-- The default (npm / external-script) branch of `_install_mcp_server`
(mcp.py lines 546-624): fails when neither package nor command is given;
short-circuits when already installed; the API-key block only prints (no
external process); in dry-run reports success; otherwise the install itself
is one `claude mcp add -s user -- name ...` invocation whose exit status
decides success. -/
def install_default_mcp_server (env : Env) (info : ServerInfo) (config : Config) :
    Bool × List Effect :=
  if info.npmPackage = none ∧ info.installCommand = none then (false, [])
  else if env.installed info.name then (true, [.listQuery])
  else
    match info.installCommand with
    | some _ =>
      if config.dryRun then (true, [.listQuery])
      else (env.claudeAddOk info.name, [.listQuery, .claudeAdd info.name])
    | none =>
      if config.dryRun then (true, [.listQuery])
      else (env.claudeAddOk info.name, [.listQuery, .claudeAdd info.name])

/-- `_install_mcp_server` (mcp.py lines 539-544): dispatch on the install
strategy. -/
def install_mcp_server (env : Env) (info : ServerInfo) (config : Config) :
    Bool × List Effect :=
  if info.installMethod = some "uv" then install_uv_mcp_server env info config
  else if info.installMethod = some "github" then
    install_github_mcp_server env info config
  else install_default_mcp_server env info config

/-- `get_metadata_modifications` (mcp.py lines 202-217), as a record: the
persisted component entry and mcp section, computed from
`installed_servers_in_session`. -/
structure MetadataMods where
  componentVersion : String
  componentInstalled : Bool
  serversCount : Nat
  mcpEnabled : Bool
  servers : List String
  autoUpdate : Bool
deriving DecidableEq, Repr

/-- `get_metadata_modifications` (mcp.py lines 202-217). -/
def get_metadata_modifications (version : String) (session : List String) :
    MetadataMods :=
  { componentVersion := version
    componentInstalled := true
    serversCount := session.length
    mcpEnabled := true
    servers := session
    autoUpdate := false }

/-- Outcome of the per-server loop of `_install` (mcp.py lines 694-720):
`ok` is false exactly when a required server failed and the loop aborted;
`verified` is the servers appended to `verified_servers`; `failed` the ones
appended to `failed_servers`; `attempted` the servers for which
`_install_mcp_server` was invoked; `effects` the external actions in
order. -/
structure LoopOut where
  ok : Bool
  verified : List String
  failed : List String
  attempted : List String
  effects : List Effect
deriving Repr

/-- The per-server loop of `_install` (mcp.py lines 698-720): for each name
a registry lookup; if already installed it is verified; otherwise
`_install_mcp_server` decides; a failure of a server whose registry entry is
flagged `required` returns failure immediately, skipping the rest. -/
def installLoop (env : Env) (config : Config) : List String → LoopOut
  | [] => ⟨true, [], [], [], []⟩
  | name :: rest =>
    match List.lookup name mcp_servers with
    | none => installLoop env config rest
    | some info =>
      if env.installed name then
        let r := installLoop env config rest
        ⟨r.ok, name :: r.verified, r.failed, r.attempted,
          Effect.listQuery :: r.effects⟩
      else
        let step := install_mcp_server env info config
        if step.1 then
          let r := installLoop env config rest
          ⟨r.ok, name :: r.verified, r.failed, name :: r.attempted,
            Effect.listQuery :: (step.2 ++ r.effects)⟩
        else if info.required then
          ⟨false, [], [name], [name], Effect.listQuery :: step.2⟩
        else
          let r := installLoop env config rest
          ⟨r.ok, r.verified, name :: r.failed, name :: r.attempted,
            Effect.listQuery :: (step.2 ++ r.effects)⟩

/-- The reconciled server set of `_install` (mcp.py lines 671-684):
detection from config and CLI (deduplicated as `list(set(..))`), the
caller's selection, the persisted list, merged through
`_merge_server_lists`. -/
def reconciledServers (env : Env) (config : Config) : List String :=
  let existing :=
    (detect_from_config env.configKeys ++
      (if env.cliListOk then detect_from_cli env.cliListOutput else [])).dedup
  mergeServerLists existing config.selectedServers env.previousServers

/-- Result of one `_install` run. -/
structure InstallRun where
  ok : Bool
  verified : List String
  failed : List String
  attempted : List String
  /-- whether `_post_install` ran -/
  postRan : Bool
  /-- the metadata modifications written by `_post_install`, when it ran -/
  metadata : Option MetadataMods
  effects : List Effect
deriving Repr

/-- Effects of `validate_prerequisites` (mcp.py lines 120-196): version
probes for node, claude, npm and uv, all read-only. -/
def prereqEffects : List Effect :=
  [.versionProbe "node", .versionProbe "claude", .versionProbe "npm",
    .versionProbe "uv"]

/-- `_install` (mcp.py lines 660-753): prerequisites, detection,
reconciliation; an empty reconciled set still runs `_post_install`;
otherwise the per-server loop, an early failure return on a required
failure, a read-only verification pass (non-dry-run only), and
`_post_install` (mcp.py lines 755-774), whose metadata write decides the
final result. -/
def mcpInstall (env : Env) (config : Config) : InstallRun :=
  if ¬ env.prereqOk then
    ⟨false, [], [], [], false, none, prereqEffects⟩
  else
    let detectEffects := prereqEffects ++ [Effect.listQuery]
    let allServers := reconciledServers env config
    if allServers.isEmpty then
      ⟨env.postInstallOk, [], [], [], true,
        some (get_metadata_modifications env.version []),
        detectEffects ++ [Effect.metadataWrite]⟩
    else
      let r := installLoop env config allServers
      if r.ok then
        let verifyEffects := if config.dryRun then [] else [Effect.listQuery]
        ⟨env.postInstallOk, r.verified, r.failed, r.attempted, true,
          some (get_metadata_modifications env.version r.verified),
          detectEffects ++ r.effects ++ verifyEffects ++ [Effect.metadataWrite]⟩
      else
        ⟨false, r.verified, r.failed, r.attempted, false, none,
          detectEffects ++ r.effects⟩

/-- `_uninstall_mcp_server` (mcp.py lines 626-658): a server absent from
`claude mcp list` is already-satisfied success; otherwise `claude mcp
remove` decides. -/
def uninstall_mcp_server (env : Env) (name : String) : Bool × List Effect :=
  if ¬ env.installed name then (true, [.listQuery])
  else (env.claudeRemoveOk name, [.listQuery, .claudeRemove name])

/-- The per-server loop of `uninstall` (mcp.py lines 784-786): every
registry key is attempted, successes are counted. -/
def uninstallLoop (env : Env) : List String → Nat × List Effect
  | [] => (0, [])
  | name :: rest =>
    let step := uninstall_mcp_server env name
    let r := uninstallLoop env rest
    ((if step.1 then 1 else 0) + r.1, step.2 ++ r.2)

/-- `uninstall` (mcp.py lines 776-806): loop over all registry keys, then a
best-effort metadata cleanup (its failure is only a warning), then success
with the aggregated removed-count. -/
def mcpUninstall (env : Env) : Bool × Nat × List Effect :=
  let r := uninstallLoop env mcpServerKeys
  (true, r.1, r.2 ++ [Effect.metadataWrite])

/-- The per-server body of `update` (mcp.py lines 831-845): best-effort
uninstall when present, then install; its `Bool` is the install outcome. -/
def updateServerStep (env : Env) (config : Config)
    (entry : String × ServerInfo) : Bool × List Effect :=
  let pre :=
    if env.installed entry.1 then
      Effect.listQuery :: (uninstall_mcp_server env entry.1).2
    else [Effect.listQuery]
  let step := install_mcp_server env entry.2 config
  (step.1, pre ++ step.2)

/-- `update` (mcp.py lines 812-869): when the stored component version
equals the target version the call is a no-op success; otherwise every
registry server is reinstalled, the metadata is rewritten (best-effort) and
success requires zero failures. -/
def mcpUpdate (env : Env) (config : Config) : Bool × List Effect :=
  if env.storedVersion = some env.version then (true, [])
  else
    let steps := mcp_servers.map (updateServerStep env config)
    (steps.all Prod.fst,
      (steps.map Prod.snd).flatten ++ [Effect.metadataWrite])

/-- `self.server_docs_map` of the documentation component
(mcp_docs.py lines 23-33). -/
def server_docs_map : List (String × String) :=
  [ ("context7", "MCP_Context7.md"),
    ("sequential", "MCP_Sequential.md"),
    ("sequential-thinking", "MCP_Sequential.md"),
    ("magic", "MCP_Magic.md"),
    ("playwright", "MCP_Playwright.md"),
    ("serena", "MCP_Serena.md"),
    ("morphllm", "MCP_Morphllm.md"),
    ("morphllm-fast-apply", "MCP_Morphllm.md"),
    ("tavily", "MCP_Tavily.md") ]

/-- Keys of `server_docs_map`, in order. -/
def docsMapKeys : List String := server_docs_map.map Prod.fst

/-- The external world of one documentation install run
(mcp_docs.py). -/
structure DocsEnv where
  /-- the documentation source directory exists (`_get_source_dir`,
  mcp_docs.py lines 314-325) -/
  sourceDirExists : Bool
  /-- a given documentation source file exists (`source.exists()`,
  mcp_docs.py line 74), keyed by file name -/
  fileExists : String → Bool
  /-- `self.file_manager.copy_file` succeeds for a given file name
  (mcp_docs.py line 220) -/
  copyOk : String → Bool
  /-- `validate_prerequisites` succeeds (mcp_docs.py line 200) -/
  prereqOk : Bool
  /-- `_post_install` metadata update succeeds (mcp_docs.py lines 237-266) -/
  postOk : Bool
  /-- `mcpServers` keys of the detected Claude Desktop config
  (mcp_docs.py lines 94-136); `[]` when none is found -/
  configKeys : List String
  /-- `components.mcp_docs.servers_documented` from metadata
  (mcp_docs.py line 172) -/
  previousServers : List String

/-- The docs component's `name_mappings` (mcp_docs.py lines 146-156);
note it differs from mcp.py's: the canonical key for the morph family is
`morphllm` here. -/
def docs_name_mappings : List (String × String) :=
  [ ("context7", "context7"),
    ("sequential-thinking", "sequential-thinking"),
    ("sequential", "sequential-thinking"),
    ("magic", "magic"),
    ("playwright", "playwright"),
    ("serena", "serena"),
    ("morphllm", "morphllm"),
    ("morphllm-fast-apply", "morphllm"),
    ("morph", "morphllm") ]

/-- The docs component's `_normalize_server_name`
(mcp_docs.py lines 138-158). -/
def docs_normalize_server_name (server_name : String) : Option String :=
  if server_name = "" then none
  else List.lookup (pyStrip (pyLower server_name)) docs_name_mappings

/-- `_detect_existing_mcp_servers_from_config` of the docs component
(mcp_docs.py lines 94-136). -/
def docs_detect_from_config (configKeys : List String) : List String :=
  configKeys.filterMap (fun k =>
    match docs_normalize_server_name k with
    | some n => if n != "" && docsMapKeys.contains n then some n else none
    | none => none)

/-- The reconciled and filtered server list of the docs `_install`
(mcp_docs.py lines 164-178): `list(set(detected + selected + previous))`
filtered to documented servers.  As for the mcp component, Python's set
iteration order is unspecified and the embedding fixes first-occurrence
order. -/
def docsValidServers (env : DocsEnv) (selected : List String) : List String :=
  ((docs_detect_from_config env.configKeys ++ selected ++
      env.previousServers).dedup).filter
    (fun s => docsMapKeys.contains s)

/-- `get_files_to_install` (mcp_docs.py lines 58-80), reduced to the list of
source file names: for each selected server with a docs-map entry whose
source file exists, the file is scheduled; a missing file only logs a
warning and is skipped. -/
def docsFilesToInstall (env : DocsEnv) (selected : List String) :
    List String :=
  if env.sourceDirExists && !selected.isEmpty then
    selected.filterMap (fun s =>
      match List.lookup s server_docs_map with
      | some doc => if env.fileExists doc then some doc else none
      | none => none)
  else []

/-- The docs component's `_install` (mcp_docs.py lines 160-235): detection
and merge; an empty valid set is a no-op that still posts metadata;
prerequisite failure fails; an empty file list fails ("No MCP documentation
files found to install"); any copy failure fails the whole run; otherwise
`_post_install`. -/
def docsInstall (env : DocsEnv) (config : Config) : Bool :=
  let valid := docsValidServers env config.selectedServers
  if valid.isEmpty then env.postOk
  else if ¬ env.prereqOk then false
  else
    let files := docsFilesToInstall env valid
    if files.isEmpty then false
    else
      let copied := files.filter env.copyOk
      if copied.length ≠ files.length then false
      else env.postOk

/-! ## Helper lemmas -/

lemma mergeServerLists_toFinset (d s p : List String) :
    (mergeServerLists d s p).toFinset
      = (d.toFinset ∪ s.toFinset ∪ p.toFinset).filter
          (fun x => mcpServerKeys.contains x = true) := by
  ext x
  simp [mergeServerLists, List.mem_dedup, or_assoc]

lemma mergeServerLists_nodup (d s p : List String) :
    (mergeServerLists d s p).Nodup :=
  (List.nodup_dedup _).filter _

lemma mergeServerLists_mem_keys {d s p : List String} {x : String}
    (h : x ∈ mergeServerLists d s p) : x ∈ mcpServerKeys := by
  have := (List.mem_filter.mp h).2
  simpa using this

lemma pyLower_eq_empty_iff (s : String) : pyLower s = "" ↔ s = "" := by
  constructor
  · intro h
    have h2 : s.data.map Char.toLower = ([] : List Char) :=
      congrArg String.data h
    have h3 : s.data = [] := List.map_eq_nil_iff.mp h2
    exact String.ext h3
  · intro h
    subst h
    rfl

lemma lookup_name_mappings_mem {k c : String}
    (h : List.lookup k name_mappings = some c) :
    c ∈ ["context7", "sequential-thinking", "magic", "playwright",
          "serena", "morphllm-fast-apply"] := by
  simp only [name_mappings, List.lookup] at h
  repeat' split at h
  all_goals simp_all

lemma lookup_name_mappings_ne_tavily (k : String) :
    List.lookup k name_mappings ≠ some "tavily" := by
  intro h
  have := lookup_name_mappings_mem h
  simp at this

lemma normalize_server_name_ne_tavily (s : String) :
    normalize_server_name s ≠ some "tavily" := by
  unfold normalize_server_name
  split
  · simp
  · exact lookup_name_mappings_ne_tavily _

/-- Generic fact about association-list lookup: a successful lookup comes
from an entry of the list. -/
lemma lookup_mem {α β : Type} [BEq α] [LawfulBEq α] {l : List (α × β)}
    {k : α} {v : β} (h : List.lookup k l = some v) : (k, v) ∈ l := by
  induction l with
  | nil => exact Option.noConfusion h
  | cons a l ih =>
    obtain ⟨k2, v2⟩ := a
    rw [List.lookup] at h
    cases hbeq : k == k2 with
    | true =>
      rw [hbeq] at h
      injection h with h
      subst h
      have : k = k2 := eq_of_beq hbeq
      subst this
      exact List.mem_cons_self ..
    | false =>
      rw [hbeq] at h
      exact List.mem_cons_of_mem _ (ih h)

/-- Whether a server would trigger the required-failure abort of the
install loop of `_install` (mcp.py lines 713-718): a registry entry flagged
`required`, not already present, whose install attempt fails. -/
def requiredAbort (env : Env) (config : Config) (n : String) : Bool :=
  match List.lookup n mcp_servers with
  | some info =>
    !env.installed n && !(install_mcp_server env info config).1 && info.required
  | none => false

/-- Whether the install loop verifies a server: a registry entry that is
already present or installs successfully. -/
def serverVerifies (env : Env) (config : Config) (n : String) : Bool :=
  match List.lookup n mcp_servers with
  | some info => env.installed n || (install_mcp_server env info config).1
  | none => false

/-- Whether the install loop records a server as failed: a registry entry
that is absent and whose install attempt fails. -/
def serverFails (env : Env) (config : Config) (n : String) : Bool :=
  match List.lookup n mcp_servers with
  | some info => !env.installed n && !(install_mcp_server env info config).1
  | none => false

lemma serverFails_not_verifies {env : Env} {config : Config} {n : String}
    (h : serverFails env config n = true) :
    serverVerifies env config n = false := by
  unfold serverFails at h
  unfold serverVerifies
  cases hlk : List.lookup n mcp_servers with
  | none => rfl
  | some info =>
    rw [hlk] at h
    simp only [Bool.and_eq_true, Bool.not_eq_eq_eq_not, Bool.not_true] at h
    simp [h.1, h.2]

/-- On a list with no abort-triggering server, the install loop completes
with success; the verified and failed lists are the filters of the input by
the corresponding per-server outcomes. -/
lemma installLoop_no_abort (env : Env) (config : Config) (l : List String)
    (h : ∀ n ∈ l, requiredAbort env config n = false) :
    (installLoop env config l).ok = true
    ∧ (installLoop env config l).verified
        = l.filter (serverVerifies env config)
    ∧ (installLoop env config l).failed = l.filter (serverFails env config) := by
  induction l with
  | nil => exact ⟨rfl, rfl, rfl⟩
  | cons name rest ih =>
    have hname := h name (List.mem_cons_self ..)
    obtain ⟨ih1, ih2, ih3⟩ := ih (fun n hn => h n (List.mem_cons_of_mem _ hn))
    rw [installLoop]
    cases hlk : List.lookup name mcp_servers with
    | none =>
      have hv : serverVerifies env config name = false := by
        unfold serverVerifies
        rw [hlk]
      have hf : serverFails env config name = false := by
        unfold serverFails
        rw [hlk]
      simp only [List.filter_cons, hv, hf, if_neg Bool.false_ne_true]
      exact ⟨ih1, ih2, ih3⟩
    | some info =>
      unfold requiredAbort at hname
      rw [hlk] at hname
      have hv : serverVerifies env config name
          = (env.installed name || (install_mcp_server env info config).1) := by
        unfold serverVerifies
        rw [hlk]
      have hf : serverFails env config name
          = (!env.installed name && !(install_mcp_server env info config).1) := by
        unfold serverFails
        rw [hlk]
      by_cases hinst : env.installed name = true
      · simp only [hinst, if_pos trivial, List.filter_cons, hv, hf,
          Bool.true_or, Bool.not_true, Bool.false_and, if_pos rfl,
          Bool.false_eq_true, if_false]
        exact ⟨ih1, by rw [ih2], ih3⟩
      · have hinst2 : env.installed name = false := by
          cases hh : env.installed name
          · rfl
          · exact absurd hh hinst
        by_cases hok : (install_mcp_server env info config).1 = true
        · simp only [hinst, if_neg, hok, if_pos trivial, List.filter_cons, hv, hf,
            hinst2, Bool.false_or, Bool.not_true, Bool.and_false,
            Bool.false_eq_true, if_false, if_pos rfl]
          exact ⟨ih1, by rw [ih2], ih3⟩
        · have hok2 : (install_mcp_server env info config).1 = false := by
            cases hh : (install_mcp_server env info config).1
            · rfl
            · exact absurd hh hok
          have hreq : info.required = false := by
            dsimp only at hname
            rw [hinst2, hok2] at hname
            simpa using hname
          simp only [hinst, if_neg, hok, List.filter_cons, hv, hf, hinst2,
            hok2, hreq, Bool.false_or, Bool.not_false, Bool.and_true,
            Bool.true_and, if_pos rfl, Bool.false_eq_true, if_false, if_true]
          refine ⟨ih1, ih2, ?_⟩
          rw [ih3]

/-- When every server before `s` leaves the loop running and `s` triggers
the required-failure abort, the loop returns failure and attempts installs
only among the prefix and `s` — never a server after `s`. -/
lemma installLoop_abort (env : Env) (config : Config)
    (pre post : List String) (s : String)
    (hpre : ∀ n ∈ pre, requiredAbort env config n = false)
    (hs : requiredAbort env config s = true) :
    (installLoop env config (pre ++ s :: post)).ok = false
    ∧ (installLoop env config (pre ++ s :: post)).attempted ⊆ pre ++ [s] := by
  induction pre with
  | nil =>
    simp only [List.nil_append]
    unfold requiredAbort at hs
    cases hlk : List.lookup s mcp_servers with
    | none =>
      rw [hlk] at hs
      simp at hs
    | some info =>
      rw [hlk] at hs
      dsimp only at hs
      simp only [Bool.and_eq_true, Bool.not_eq_eq_eq_not, Bool.not_true] at hs
      obtain ⟨⟨hinst, hok⟩, hreq⟩ := hs
      rw [installLoop]
      simp only [hlk, hinst, hok, hreq, Bool.false_eq_true, if_false, if_true]
      exact ⟨trivial, List.Subset.refl _⟩
  | cons a pre ih =>
    have ha := hpre a (List.mem_cons_self ..)
    obtain ⟨ih1, ih2⟩ := ih (fun n hn => hpre n (List.mem_cons_of_mem _ hn))
    rw [List.cons_append, installLoop]
    cases hlk : List.lookup a mcp_servers with
    | none =>
      simp only [hlk]
      exact ⟨ih1, ih2.trans (List.subset_cons_self _ _)⟩
    | some info =>
      by_cases hinst : env.installed a = true
      · simp only [hlk, hinst, if_true]
        exact ⟨ih1, ih2.trans (List.subset_cons_self _ _)⟩
      · have hinst2 : env.installed a = false := by
          cases hh : env.installed a
          · rfl
          · exact absurd hh hinst
        by_cases hok : (install_mcp_server env info config).1 = true
        · simp only [hlk, hinst2, Bool.false_eq_true, if_false, hok, if_true]
          exact ⟨ih1, List.cons_subset_cons a ih2⟩
        · have hok2 : (install_mcp_server env info config).1 = false := by
            cases hh : (install_mcp_server env info config).1
            · rfl
            · exact absurd hh hok
          have hreq : info.required = false := by
            unfold requiredAbort at ha
            rw [hlk] at ha
            dsimp only at ha
            rw [hinst2, hok2] at ha
            simpa using ha
          simp only [hlk, hinst2, Bool.false_eq_true, if_false, hok2, hreq]
          exact ⟨ih1, List.cons_subset_cons a ih2⟩

lemma reconciledServers_nodup (env : Env) (config : Config) :
    (reconciledServers env config).Nodup := by
  unfold reconciledServers
  exact mergeServerLists_nodup _ _ _

/-- Branch lemma: prerequisites hold, the reconciled set is empty
(mcp.py lines 686-689). -/
lemma mcpInstall_empty {env : Env} {config : Config}
    (hprereq : env.prereqOk = true)
    (he : (reconciledServers env config).isEmpty = true) :
    (mcpInstall env config).ok = env.postInstallOk
    ∧ (mcpInstall env config).verified = []
    ∧ (mcpInstall env config).failed = []
    ∧ (mcpInstall env config).attempted = []
    ∧ (mcpInstall env config).postRan = true
    ∧ (mcpInstall env config).metadata
        = some (get_metadata_modifications env.version [])
    ∧ (mcpInstall env config).effects
        = prereqEffects ++ [Effect.listQuery] ++ [Effect.metadataWrite] := by
  unfold mcpInstall
  simp [hprereq, he]

/-- Branch lemma: prerequisites hold, the reconciled set is non-empty and
the loop completes without a required-failure abort
(mcp.py lines 722-753). -/
lemma mcpInstall_loop_ok {env : Env} {config : Config}
    (hprereq : env.prereqOk = true)
    (he : (reconciledServers env config).isEmpty = false)
    (hok : (installLoop env config (reconciledServers env config)).ok = true) :
    (mcpInstall env config).ok = env.postInstallOk
    ∧ (mcpInstall env config).verified
        = (installLoop env config (reconciledServers env config)).verified
    ∧ (mcpInstall env config).failed
        = (installLoop env config (reconciledServers env config)).failed
    ∧ (mcpInstall env config).attempted
        = (installLoop env config (reconciledServers env config)).attempted
    ∧ (mcpInstall env config).postRan = true
    ∧ (mcpInstall env config).metadata
        = some (get_metadata_modifications env.version
            (installLoop env config (reconciledServers env config)).verified)
    ∧ (mcpInstall env config).effects
        = prereqEffects ++ [Effect.listQuery]
            ++ (installLoop env config (reconciledServers env config)).effects
            ++ (if config.dryRun then [] else [Effect.listQuery])
            ++ [Effect.metadataWrite] := by
  unfold mcpInstall
  simp [hprereq, he, hok]

/-- Branch lemma: prerequisites hold, the reconciled set is non-empty and
the loop aborts on a required failure (mcp.py lines 716-718). -/
lemma mcpInstall_loop_not_ok {env : Env} {config : Config}
    (hprereq : env.prereqOk = true)
    (he : (reconciledServers env config).isEmpty = false)
    (hok : (installLoop env config (reconciledServers env config)).ok = false) :
    (mcpInstall env config).ok = false
    ∧ (mcpInstall env config).attempted
        = (installLoop env config (reconciledServers env config)).attempted
    ∧ (mcpInstall env config).postRan = false := by
  unfold mcpInstall
  simp [hprereq, he, hok]

lemma prereqEffects_nonmutating : ∀ e ∈ prereqEffects, e.mutating = false := by
  intro e he
  fin_cases he <;> rfl

/-- In dry-run mode the default (npm / external-script) strategy reports
success after the presence check without any mutating effect, for any
server entry that has a package or an install command. -/
lemma install_default_dry (env : Env) (config : Config) (info : ServerInfo)
    (hdry : config.dryRun = true)
    (hok : ¬ (info.npmPackage = none ∧ info.installCommand = none)) :
    (install_default_mcp_server env info config).1 = true
    ∧ ∀ e ∈ (install_default_mcp_server env info config).2,
        e.mutating = false := by
  unfold install_default_mcp_server
  rw [if_neg hok]
  by_cases hinst : env.installed info.name = true
  · simp [hinst, Effect.mutating]
  · cases hic : info.installCommand with
    | some ic => simp [hinst, hic, hdry, Effect.mutating]
    | none => simp [hinst, hic, hdry, Effect.mutating]

/-- In dry-run mode the source-checkout (github) strategy reports success
after the presence and `uvx` checks without any mutating effect. -/
lemma install_github_dry (env : Env) (config : Config) (info : ServerInfo)
    {ic rc : String}
    (hic : info.installCommand = some ic) (hrc : info.runCommand = some rc)
    (hdry : config.dryRun = true) (huvx : env.uvxAvailable = true) :
    (install_github_mcp_server env info config).1 = true
    ∧ ∀ e ∈ (install_github_mcp_server env info config).2,
        e.mutating = false := by
  unfold install_github_mcp_server
  rw [hic, hrc]
  dsimp only
  by_cases hinst : env.installed info.name = true
  · simp [hinst, Effect.mutating]
  · simp [hinst, hdry, huvx, Effect.mutating]

/-- In dry-run mode, with `uvx` available, every registry server's install
reports success without any mutating effect. -/
lemma install_mcp_server_dry (env : Env) (config : Config)
    {n : String} {info : ServerInfo}
    (hlk : List.lookup n mcp_servers = some info)
    (hdry : config.dryRun = true) (huvx : env.uvxAvailable = true) :
    (install_mcp_server env info config).1 = true
    ∧ ∀ e ∈ (install_mcp_server env info config).2, e.mutating = false := by
  have hmem := lookup_mem hlk
  simp only [mcp_servers, List.mem_cons, List.not_mem_nil, or_false,
    Prod.mk.injEq] at hmem
  rcases hmem with ⟨-, rfl⟩ | ⟨-, rfl⟩ | ⟨-, rfl⟩ | ⟨-, rfl⟩ | ⟨-, rfl⟩ |
    ⟨-, rfl⟩ | ⟨-, rfl⟩
  case inr.inr.inr.inr.inl =>
    unfold install_mcp_server
    rw [if_neg (by decide), if_pos (by decide)]
    exact install_github_dry env config _ rfl rfl hdry huvx
  all_goals
    unfold install_mcp_server
  all_goals
    rw [if_neg (by decide), if_neg (by decide)]
  all_goals
    exact install_default_dry env config _ hdry (by decide)

/-- In dry-run mode with `uvx` available, the install loop completes with
no failures and no mutating effects. -/
lemma installLoop_dry_run (env : Env) (config : Config)
    (hdry : config.dryRun = true) (huvx : env.uvxAvailable = true)
    (l : List String) :
    (installLoop env config l).ok = true
    ∧ (installLoop env config l).failed = []
    ∧ ∀ e ∈ (installLoop env config l).effects, e.mutating = false := by
  induction l with
  | nil => exact ⟨rfl, rfl, fun e he => absurd he (List.not_mem_nil e)⟩
  | cons name rest ih =>
    obtain ⟨ih1, ih2, ih3⟩ := ih
    rw [installLoop]
    cases hlk : List.lookup name mcp_servers with
    | none => exact ⟨ih1, ih2, ih3⟩
    | some info =>
      obtain ⟨hs1, hs2⟩ := install_mcp_server_dry env config hlk hdry huvx
      by_cases hinst : env.installed name = true
      · simp only [hinst, if_true]
        refine ⟨ih1, ih2, fun e he => ?_⟩
        rcases List.mem_cons.mp he with rfl | he2
        · rfl
        · exact ih3 e he2
      · simp only [hinst, if_false, hs1, if_true]
        refine ⟨ih1, ih2, fun e he => ?_⟩
        rcases List.mem_cons.mp he with rfl | he2
        · rfl
        · rcases List.mem_append.mp he2 with h3 | h4
          · exact hs2 e h3
          · exact ih3 e h4

/-! ## Claim theorems -/

/-- C1: the reconciliation merge `_merge_server_lists` is idempotent and
commutative in its three arguments — the set of names in its output is
exactly the union of the three inputs intersected with the registry keys,
so it depends only on that union and is invariant under swapping arguments
and under re-merging its own output; the output has no duplicates; and
every output name is a key of the static server registry. -/
theorem merge_server_lists_spec (d s p : List String) :
    (mergeServerLists d s p).toFinset
      = (d.toFinset ∪ s.toFinset ∪ p.toFinset).filter
          (fun x => mcpServerKeys.contains x = true)
    ∧ (mergeServerLists d s p).toFinset = (mergeServerLists s d p).toFinset
    ∧ (mergeServerLists d s p).toFinset = (mergeServerLists d p s).toFinset
    ∧ (mergeServerLists (mergeServerLists d s p) (mergeServerLists d s p)
        (mergeServerLists d s p)).toFinset = (mergeServerLists d s p).toFinset
    ∧ (mergeServerLists d s p).Nodup
    ∧ (∀ x ∈ mergeServerLists d s p, x ∈ mcpServerKeys) := by
  refine ⟨mergeServerLists_toFinset d s p, ?_, ?_, ?_, mergeServerLists_nodup d s p,
    fun x hx => mergeServerLists_mem_keys hx⟩
  · rw [mergeServerLists_toFinset, mergeServerLists_toFinset,
      Finset.union_comm d.toFinset s.toFinset]
  · rw [mergeServerLists_toFinset, mergeServerLists_toFinset,
      Finset.union_assoc, Finset.union_assoc,
      Finset.union_comm s.toFinset p.toFinset]
  · rw [mergeServerLists_toFinset, Finset.union_self, Finset.union_self]
    apply Finset.filter_true_of_mem
    intro x hx
    exact List.elem_iff.mpr
      (mergeServerLists_mem_keys (List.mem_toFinset.mp hx))

/-- Witness for C1: the merge of two overlapping concrete lists with a
non-registry name, evaluated, with its subset property applied at
`"magic"`. -/
theorem merge_server_lists_spec_witness :
    ("magic" ∈ mergeServerLists ["sequential-thinking", "bogus"] ["magic"]
        ["magic", "context7"])
    ∧ "magic" ∈ mcpServerKeys :=
  ⟨by decide,
    (merge_server_lists_spec ["sequential-thinking", "bogus"] ["magic"]
        ["magic", "context7"]).2.2.2.2.2 "magic" (by decide)⟩

/-- C5 counterexample: the input `"foo"` is unrecognized, and
`_normalize_server_name` maps it to `None`, not to `"unknown"` — so the
claim that every unrecognized name normalizes to `"unknown"` is false. -/
theorem normalize_unknown_counterexample :
    normalize_server_name "foo" = none
    ∧ normalize_server_name "foo" ≠ some "unknown" := by
  constructor
  · decide
  · decide

/-- C5 (amended): `_normalize_server_name` is case-insensitive and trims
surrounding whitespace — in particular `"Sequential"`,
`"sequential-thinking"` and `" SEQUENTIAL "` all normalize to the canonical
key `"sequential-thinking"`; two inputs with the same lowercasing normalize
identically; every recognized synonym maps to a canonical registry key
(never to `"unknown"`); and every unrecognized name normalizes to `None`
(no canonical key), not to `"unknown"`. -/
theorem normalize_server_name_spec :
    (normalize_server_name "Sequential" = some "sequential-thinking"
      ∧ normalize_server_name "sequential-thinking" = some "sequential-thinking"
      ∧ normalize_server_name " SEQUENTIAL " = some "sequential-thinking")
    ∧ (∀ s t : String, pyLower s = pyLower t →
        normalize_server_name s = normalize_server_name t)
    ∧ (∀ s c, normalize_server_name s = some c →
        c ∈ mcpServerKeys ∧ c ≠ "unknown")
    ∧ (∀ s, List.lookup (pyStrip (pyLower s)) name_mappings = none →
        normalize_server_name s = none) := by
  refine ⟨⟨by decide, by decide, by decide⟩, ?_, ?_, ?_⟩
  · intro s t h
    by_cases hs : s = ""
    · have ht : t = "" := by
        rw [hs] at h
        exact (pyLower_eq_empty_iff t).mp h.symm
      rw [hs, ht]
    · have ht : t ≠ "" := by
        intro he
        rw [he] at h
        exact hs ((pyLower_eq_empty_iff s).mp h)
      simp only [normalize_server_name, if_neg hs, if_neg ht, h]
  · intro s c h
    unfold normalize_server_name at h
    split at h
    · exact Option.noConfusion h
    · have hm := lookup_name_mappings_mem h
      fin_cases hm <;> exact ⟨by decide, by decide⟩
  · intro s h
    unfold normalize_server_name
    split
    · rfl
    · exact h

/-- Witness for C5 (amended): case-insensitivity applied at
`"morph"` / `"MORPH"`, the canonical-key property applied at `"morph"`, and
the unrecognized case applied at `"xyz"`. -/
theorem normalize_server_name_spec_witness :
    normalize_server_name "morph" = normalize_server_name "MORPH"
    ∧ ("morphllm-fast-apply" ∈ mcpServerKeys ∧ "morphllm-fast-apply" ≠ "unknown")
    ∧ normalize_server_name "xyz" = none :=
  ⟨normalize_server_name_spec.2.1 "morph" "MORPH" (by decide),
    normalize_server_name_spec.2.2.1 "morph" "morphllm-fast-apply" (by decide),
    normalize_server_name_spec.2.2.2 "xyz" (by decide)⟩

/-- C10: `"tavily"` is a key of the static server registry, yet
`_normalize_server_name` maps no input to it, so neither config-file
detection nor host-CLI detection can ever report `"tavily"`, whatever the
config keys or CLI output are. -/
theorem tavily_never_detected :
    "tavily" ∈ mcpServerKeys
    ∧ (∀ s, normalize_server_name s ≠ some "tavily")
    ∧ (∀ keys, "tavily" ∉ detect_from_config keys)
    ∧ (∀ out, "tavily" ∉ detect_from_cli out) := by
  refine ⟨by decide, normalize_server_name_ne_tavily, ?_, ?_⟩
  · intro keys h
    obtain ⟨a, -, hfa⟩ := List.mem_filterMap.mp h
    cases hn : normalize_server_name a with
    | none =>
      simp only [hn] at hfa
      exact Option.noConfusion hfa
    | some n =>
      simp only [hn] at hfa
      split at hfa
      · injection hfa with hEq
        subst hEq
        exact normalize_server_name_ne_tavily a hn
      · exact Option.noConfusion hfa
  · intro out h
    obtain ⟨a, -, hfa⟩ := List.mem_filterMap.mp h
    split at hfa
    · cases hn : normalize_server_name (firstToken (pyLower (pyStrip a))) with
      | none =>
        simp only [hn] at hfa
        exact Option.noConfusion hfa
      | some n =>
        simp only [hn] at hfa
        split at hfa
        · injection hfa with hEq
          subst hEq
          exact normalize_server_name_ne_tavily _ hn
        · exact Option.noConfusion hfa
    · exact Option.noConfusion hfa

/-- Witness for C10: at the concrete config key list `["tavily"]` and the
concrete CLI output `"tavily: npx -y tavily-mcp"`, `"tavily"` is detected by
neither path. -/
theorem tavily_never_detected_witness :
    "tavily" ∉ detect_from_config ["tavily"]
    ∧ "tavily" ∉ detect_from_cli "tavily: npx -y tavily-mcp" :=
  ⟨tavily_never_detected.2.2.1 ["tavily"],
    tavily_never_detected.2.2.2 "tavily: npx -y tavily-mcp"⟩

/-- C2: in any install run whose reconciled server list reaches a server
that is flagged required in the registry, is not already present, and whose
install attempt fails (every server before it leaving the loop running),
`_install` returns failure immediately and no server after the failing one
has an install attempted. -/
theorem required_failure_aborts_install (env : Env) (config : Config)
    (pre post : List String) (s : String) (info : ServerInfo)
    (hsplit : reconciledServers env config = pre ++ s :: post)
    (hlk : List.lookup s mcp_servers = some info)
    (hreq : info.required = true)
    (hninst : env.installed s = false)
    (hfail : (install_mcp_server env info config).1 = false)
    (hpre : ∀ n ∈ pre, requiredAbort env config n = false)
    (hprereq : env.prereqOk = true) :
    (mcpInstall env config).ok = false
    ∧ ∀ t ∈ post, t ∉ (mcpInstall env config).attempted := by
  have habort : requiredAbort env config s = true := by
    unfold requiredAbort
    rw [hlk]
    dsimp only
    rw [hninst, hfail, hreq]
    rfl
  have hloop := installLoop_abort env config pre post s hpre habort
  have hne : (reconciledServers env config).isEmpty = false := by
    rw [hsplit]
    cases pre <;> rfl
  have hloop2 :
      (installLoop env config (reconciledServers env config)).ok = false := by
    rw [hsplit]
    exact hloop.1
  obtain ⟨hok, hatt, -⟩ := mcpInstall_loop_not_ok hprereq hne hloop2
  refine ⟨hok, fun t ht hmem => ?_⟩
  rw [hatt, hsplit] at hmem
  have hsub := hloop.2 hmem
  have hnodup : (pre ++ s :: post).Nodup := by
    rw [← hsplit]
    exact reconciledServers_nodup env config
  rw [List.nodup_append] at hnodup
  obtain ⟨-, hnd2, hdisj⟩ := hnodup
  rcases List.mem_append.mp hsub with hp | hs1
  · exact hdisj hp (List.mem_cons_of_mem _ ht)
  · have hts : t = s := by simpa using hs1
    subst hts
    exact (List.nodup_cons.mp hnd2).1 ht

/-- Concrete environment for the C2 witness: nothing installed, every
host-CLI registration fails, prerequisites fine. -/
def envC2 : Env :=
  { installed := fun _ => false
    uvAvailable := true
    uvxAvailable := true
    runInstallCmdOk := fun _ => true
    claudeAddOk := fun _ => false
    claudeRemoveOk := fun _ => true
    prereqOk := true
    postInstallOk := true
    configKeys := []
    cliListOk := false
    cliListOutput := ""
    previousServers := []
    storedVersion := none
    version := "4.2.0" }

/-- Witness for C2: selecting only the required server
`sequential-thinking` in an environment where its registration fails makes
the run fail. -/
theorem required_failure_aborts_install_witness :
    (mcpInstall envC2 ⟨false, ["sequential-thinking"]⟩).ok = false
    ∧ ∀ t ∈ ([] : List String),
        t ∉ (mcpInstall envC2 ⟨false, ["sequential-thinking"]⟩).attempted :=
  required_failure_aborts_install envC2 ⟨false, ["sequential-thinking"]⟩
    [] [] "sequential-thinking"
    { name := "sequential-thinking"
      npmPackage := some "@modelcontextprotocol/server-sequential-thinking"
      required := true }
    (by decide) (by decide) rfl rfl (by decide)
    (fun n hn => absurd hn (List.not_mem_nil n)) rfl

/-- C3: in any install run in which no server triggers the required-failure
abort and the metadata write succeeds, `_install` returns success; the
failed-servers list holds exactly the registry servers of the run that were
absent and failed to install, none of which appears in the verified list;
and the metadata written by `_post_install` records exactly the servers
verified or installed successfully in this run. -/
theorem optional_failures_partial_success (env : Env) (config : Config)
    (hprereq : env.prereqOk = true)
    (hpost : env.postInstallOk = true)
    (hnoreq : ∀ n ∈ reconciledServers env config,
        requiredAbort env config n = false) :
    (mcpInstall env config).ok = true
    ∧ (mcpInstall env config).failed
        = (reconciledServers env config).filter (serverFails env config)
    ∧ (mcpInstall env config).verified
        = (reconciledServers env config).filter (serverVerifies env config)
    ∧ (∀ n ∈ (mcpInstall env config).failed,
        n ∉ (mcpInstall env config).verified)
    ∧ (mcpInstall env config).metadata
        = some (get_metadata_modifications env.version
            (mcpInstall env config).verified) := by
  have hdisj :
      (mcpInstall env config).failed
          = (reconciledServers env config).filter (serverFails env config) →
      (mcpInstall env config).verified
          = (reconciledServers env config).filter (serverVerifies env config) →
      ∀ n ∈ (mcpInstall env config).failed,
        n ∉ (mcpInstall env config).verified := by
    intro hfe hve n hn hv
    rw [hfe] at hn
    rw [hve] at hv
    have h1 := (List.mem_filter.mp hn).2
    have h2 := (List.mem_filter.mp hv).2
    rw [serverFails_not_verifies h1] at h2
    exact Bool.false_ne_true h2
  cases he : (reconciledServers env config).isEmpty with
  | true =>
    obtain ⟨h1, h2, h3, -, -, h6, -⟩ := mcpInstall_empty hprereq he
    have hlist : reconciledServers env config = [] := by
      simpa [List.isEmpty_iff] using he
    rw [hlist]
    simp only [List.filter_nil]
    exact ⟨by rw [h1, hpost], h3, h2, hdisj (by rw [h3, hlist, List.filter_nil])
      (by rw [h2, hlist, List.filter_nil]), by rw [h6, h2]⟩
  | false =>
    obtain ⟨hl1, hl2, hl3⟩ := installLoop_no_abort env config _ hnoreq
    obtain ⟨h1, h2, h3, -, -, h6, -⟩ := mcpInstall_loop_ok hprereq he hl1
    refine ⟨by rw [h1, hpost], by rw [h3, hl3], by rw [h2, hl2],
      hdisj (by rw [h3, hl3]) (by rw [h2, hl2]), by rw [h6, h2]⟩

/-- Concrete environment for the C3 witness: identical to `envC2` (every
registration fails), but the run selects only the optional server
`magic`. -/
def envC3 : Env :=
  { installed := fun _ => false
    uvAvailable := true
    uvxAvailable := true
    runInstallCmdOk := fun _ => true
    claudeAddOk := fun _ => false
    claudeRemoveOk := fun _ => true
    prereqOk := true
    postInstallOk := true
    configKeys := []
    cliListOk := false
    cliListOutput := ""
    previousServers := []
    storedVersion := none
    version := "4.2.0" }

/-- Witness for C3: with only the optional server `magic` selected and its
install failing, the run still succeeds, `magic` is in the failed list but
not in the verified list, and the metadata records the verified list. -/
theorem optional_failures_partial_success_witness :
    (mcpInstall envC3 ⟨false, ["magic"]⟩).ok = true
    ∧ (mcpInstall envC3 ⟨false, ["magic"]⟩).failed
        = (reconciledServers envC3 ⟨false, ["magic"]⟩).filter
            (serverFails envC3 ⟨false, ["magic"]⟩)
    ∧ (mcpInstall envC3 ⟨false, ["magic"]⟩).verified
        = (reconciledServers envC3 ⟨false, ["magic"]⟩).filter
            (serverVerifies envC3 ⟨false, ["magic"]⟩)
    ∧ (∀ n ∈ (mcpInstall envC3 ⟨false, ["magic"]⟩).failed,
        n ∉ (mcpInstall envC3 ⟨false, ["magic"]⟩).verified)
    ∧ (mcpInstall envC3 ⟨false, ["magic"]⟩).metadata
        = some (get_metadata_modifications envC3.version
            (mcpInstall envC3 ⟨false, ["magic"]⟩).verified) :=
  optional_failures_partial_success envC3 ⟨false, ["magic"]⟩ rfl rfl
    (by decide)

/-- C4: in any install run with the dry-run option set (and the `uvx`
runner available, which the source-checkout strategy probes before its
dry-run short-circuit), no mutating external process — no package-manager
install directive and no host-CLI add/remove — is ever invoked, and no
eligible server's install fails. -/
theorem dry_run_no_mutation (env : Env) (config : Config)
    (hdry : config.dryRun = true) (huvx : env.uvxAvailable = true) :
    (∀ e ∈ (mcpInstall env config).effects, e.mutating = false)
    ∧ (mcpInstall env config).failed = [] := by
  by_cases hprereq : env.prereqOk = true
  · cases he : (reconciledServers env config).isEmpty with
    | true =>
      obtain ⟨-, -, h3, -, -, -, h7⟩ := mcpInstall_empty hprereq he
      refine ⟨fun e he2 => ?_, h3⟩
      rw [h7] at he2
      rcases List.mem_append.mp he2 with h | h
      · rcases List.mem_append.mp h with h | h
        · exact prereqEffects_nonmutating e h
        · have he3 : e = Effect.listQuery := by simpa using h
          subst he3
          rfl
      · have he3 : e = Effect.metadataWrite := by simpa using h
        subst he3
        rfl
    | false =>
      obtain ⟨hl1, hl2, hl3⟩ :=
        installLoop_dry_run env config hdry huvx (reconciledServers env config)
      obtain ⟨-, -, h3, -, -, -, h7⟩ := mcpInstall_loop_ok hprereq he hl1
      refine ⟨fun e he2 => ?_, by rw [h3, hl2]⟩
      rw [h7, hdry, if_pos rfl] at he2
      rcases List.mem_append.mp he2 with h | h
      · rcases List.mem_append.mp h with h | h
        · rcases List.mem_append.mp h with h | h
          · rcases List.mem_append.mp h with h | h
            · exact prereqEffects_nonmutating e h
            · have he3 : e = Effect.listQuery := by simpa using h
              subst he3
              rfl
          · exact hl3 e h
        · exact absurd h (List.not_mem_nil e)
      · have he3 : e = Effect.metadataWrite := by simpa using h
        subst he3
        rfl
  · have hp2 : env.prereqOk = false := by
      cases h : env.prereqOk
      · rfl
      · exact absurd h hprereq
    unfold mcpInstall
    simp only [hp2, Bool.false_eq_true, not_false_eq_true, if_true]
    exact ⟨prereqEffects_nonmutating, trivial⟩

/-- Concrete environment for the C4 witness: nothing installed, every
external action would succeed, prerequisites fine. -/
def envC4 : Env :=
  { installed := fun _ => false
    uvAvailable := true
    uvxAvailable := true
    runInstallCmdOk := fun _ => true
    claudeAddOk := fun _ => true
    claudeRemoveOk := fun _ => true
    prereqOk := true
    postInstallOk := true
    configKeys := []
    cliListOk := false
    cliListOutput := ""
    previousServers := []
    storedVersion := none
    version := "4.2.0" }

/-- Witness for C4: a dry run over the selection `magic, serena` performs
no mutating effect and fails no server. -/
theorem dry_run_no_mutation_witness :
    (∀ e ∈ (mcpInstall envC4 ⟨true, ["magic", "serena"]⟩).effects,
        e.mutating = false)
    ∧ (mcpInstall envC4 ⟨true, ["magic", "serena"]⟩).failed = [] :=
  dry_run_no_mutation envC4 ⟨true, ["magic", "serena"]⟩ rfl rfl

/-- C6: in any install run whose reconciled server set is empty,
`_install` still returns success and still performs the metadata
post-processing step, recording an empty server list — a no-op, not an
error. -/
theorem empty_reconciled_noop_success (env : Env) (config : Config)
    (hprereq : env.prereqOk = true)
    (hpost : env.postInstallOk = true)
    (hempty : reconciledServers env config = []) :
    (mcpInstall env config).ok = true
    ∧ (mcpInstall env config).postRan = true
    ∧ (mcpInstall env config).metadata
        = some (get_metadata_modifications env.version []) := by
  have he : (reconciledServers env config).isEmpty = true := by
    rw [hempty]
    rfl
  obtain ⟨h1, -, -, -, h5, h6, -⟩ := mcpInstall_empty hprereq he
  exact ⟨by rw [h1, hpost], h5, h6⟩

/-- Concrete environment for the C6 witness: nothing detected, selected or
persisted. -/
def envC6 : Env :=
  { installed := fun _ => false
    uvAvailable := true
    uvxAvailable := true
    runInstallCmdOk := fun _ => true
    claudeAddOk := fun _ => true
    claudeRemoveOk := fun _ => true
    prereqOk := true
    postInstallOk := true
    configKeys := []
    cliListOk := false
    cliListOutput := ""
    previousServers := []
    storedVersion := none
    version := "4.2.0" }

/-- Witness for C6: with nothing detected, selected or persisted the run
succeeds and posts metadata with an empty server list. -/
theorem empty_reconciled_noop_success_witness :
    (mcpInstall envC6 ⟨false, []⟩).ok = true
    ∧ (mcpInstall envC6 ⟨false, []⟩).postRan = true
    ∧ (mcpInstall envC6 ⟨false, []⟩).metadata
        = some (get_metadata_modifications envC6.version []) :=
  empty_reconciled_noop_success envC6 ⟨false, []⟩ rfl rfl (by decide)

/-- C7: when the stored component version equals the current target
version, `update` returns success with an empty effect list — no external
process is invoked and the persisted metadata is not written. -/
theorem update_noop_when_current (env : Env) (config : Config)
    (hver : env.storedVersion = some env.version) :
    mcpUpdate env config = (true, []) := by
  unfold mcpUpdate
  rw [if_pos hver]

/-- Concrete environment for the C7 witness: stored version equal to the
target version. -/
def envC7 : Env :=
  { installed := fun _ => true
    uvAvailable := true
    uvxAvailable := true
    runInstallCmdOk := fun _ => true
    claudeAddOk := fun _ => true
    claudeRemoveOk := fun _ => true
    prereqOk := true
    postInstallOk := true
    configKeys := []
    cliListOk := false
    cliListOutput := ""
    previousServers := []
    storedVersion := some "4.2.0"
    version := "4.2.0" }

/-- Witness for C7: with stored version `4.2.0` equal to the target, the
update is a no-op success with no effects. -/
theorem update_noop_when_current_witness :
    mcpUpdate envC7 ⟨false, []⟩ = (true, []) :=
  update_noop_when_current envC7 ⟨false, []⟩ rfl

lemma uninstall_mcp_server_result (env : Env) (n : String) :
    (uninstall_mcp_server env n).1
      = (!env.installed n || env.claudeRemoveOk n) := by
  unfold uninstall_mcp_server
  by_cases hinst : env.installed n = true
  · simp [hinst]
  · simp [hinst]

lemma uninstallLoop_spec (env : Env) (l : List String) :
    (uninstallLoop env l).1
      = l.countP (fun n => !env.installed n || env.claudeRemoveOk n)
    ∧ ∀ n ∈ l, env.installed n = true →
        Effect.claudeRemove n ∈ (uninstallLoop env l).2 := by
  induction l with
  | nil => exact ⟨rfl, fun n hn => absurd hn (List.not_mem_nil n)⟩
  | cons a l ih =>
    obtain ⟨ih1, ih2⟩ := ih
    rw [uninstallLoop]
    constructor
    · rw [List.countP_cons, ih1, uninstall_mcp_server_result, Nat.add_comm]
    · intro n hn hinst
      rcases List.mem_cons.mp hn with rfl | hn2
      · refine List.mem_append.mpr (Or.inl ?_)
        unfold uninstall_mcp_server
        rw [hinst]
        simp
      · exact List.mem_append.mpr (Or.inr (ih2 n hn2 hinst))

/-- C8: `uninstall` attempts every server of the static registry with no
early abort: it returns overall success in every environment (regardless
of individual removal failures), its removed-count aggregates, over all
registry keys, the servers that were absent or removed successfully,
absence counts as already-satisfied success, and every present server has
a remove directive issued. -/
theorem uninstall_attempts_all (env : Env) :
    (mcpUninstall env).1 = true
    ∧ (mcpUninstall env).2.1
        = mcpServerKeys.countP
            (fun n => !env.installed n || env.claudeRemoveOk n)
    ∧ (∀ n ∈ mcpServerKeys, env.installed n = true →
        Effect.claudeRemove n ∈ (mcpUninstall env).2.2)
    ∧ (∀ n, env.installed n = false →
        (uninstall_mcp_server env n).1 = true) := by
  obtain ⟨h1, h2⟩ := uninstallLoop_spec env mcpServerKeys
  refine ⟨rfl, h1, ?_, ?_⟩
  · intro n hn hinst
    exact List.mem_append.mpr (Or.inl (h2 n hn hinst))
  · intro n hinst
    rw [uninstall_mcp_server_result, hinst]
    rfl

/-- Concrete environment for the C8 witness: only `magic` is present and
its removal fails; the run still succeeds and the count covers the other
six servers. -/
def envC8 : Env :=
  { installed := fun n => n == "magic"
    uvAvailable := true
    uvxAvailable := true
    runInstallCmdOk := fun _ => true
    claudeAddOk := fun _ => true
    claudeRemoveOk := fun _ => false
    prereqOk := true
    postInstallOk := true
    configKeys := []
    cliListOk := false
    cliListOutput := ""
    previousServers := []
    storedVersion := none
    version := "4.2.0" }

/-- Witness for C8: with only `magic` present and its removal failing, the
uninstall run still succeeds, a remove directive is issued for `magic`,
and the absent server `tavily` counts as already-satisfied success. -/
theorem uninstall_attempts_all_witness :
    (mcpUninstall envC8).1 = true
    ∧ Effect.claudeRemove "magic" ∈ (mcpUninstall envC8).2.2
    ∧ (uninstall_mcp_server envC8 "tavily").1 = true :=
  ⟨(uninstall_attempts_all envC8).1,
    (uninstall_attempts_all envC8).2.2.1 "magic" (by decide) rfl,
    (uninstall_attempts_all envC8).2.2.2 "tavily" rfl⟩

lemma docsFilesToInstall_eq (env : DocsEnv) (selected : List String)
    (hsrc : env.sourceDirExists = true)
    (hne : selected.isEmpty = false) :
    docsFilesToInstall env selected
      = selected.filterMap (fun s =>
          match List.lookup s server_docs_map with
          | some doc => if env.fileExists doc then some doc else none
          | none => none) := by
  unfold docsFilesToInstall
  rw [hsrc, hne]
  rfl

/-- Concrete environment for the C9 counterexample: documentation source
directory present but every documentation file missing. -/
def docsEnvCex : DocsEnv :=
  { sourceDirExists := true
    fileExists := fun _ => false
    copyOk := fun _ => true
    prereqOk := true
    postOk := true
    configKeys := []
    previousServers := [] }

/-- C9 counterexample: when the selected server `magic` has its
documentation source file missing (and it is the only selected server),
the documentation install run as a whole returns failure — the code trips
the "no documentation files found" check — contradicting the claim that a
missing file never fails the run. -/
theorem docs_missing_file_counterexample :
    docsInstall docsEnvCex ⟨false, ["magic"]⟩ = false := by decide

/-- C9 (amended): in a documentation install run in which at least one
selected server's documentation file exists (with prerequisites, copies
and the metadata write succeeding), a missing documentation file fails
only for that file: the run returns success, no missing file is scheduled
or copied, and every selected server whose file exists has its file
installed.  When every selected file is missing, the run instead returns
failure. -/
theorem docs_missing_file_skipped (env : DocsEnv) (config : Config)
    (hsrc : env.sourceDirExists = true)
    (hprereq : env.prereqOk = true)
    (hpost : env.postOk = true)
    (hcopy : ∀ f, env.copyOk f = true)
    (hexists : ∃ t ∈ docsValidServers env config.selectedServers,
        ∃ d, List.lookup t server_docs_map = some d
          ∧ env.fileExists d = true) :
    docsInstall env config = true
    ∧ (∀ d ∈ docsFilesToInstall env
          (docsValidServers env config.selectedServers),
        env.fileExists d = true)
    ∧ (∀ s ∈ docsValidServers env config.selectedServers, ∀ d,
        List.lookup s server_docs_map = some d → env.fileExists d = true →
        d ∈ docsFilesToInstall env
          (docsValidServers env config.selectedServers)) := by
  obtain ⟨t, htv, d, hlkd, hfe⟩ := hexists
  have hvne : (docsValidServers env config.selectedServers).isEmpty = false := by
    cases hv : docsValidServers env config.selectedServers with
    | nil =>
      rw [hv] at htv
      exact absurd htv (List.not_mem_nil t)
    | cons a l => rfl
  have hfiles := docsFilesToInstall_eq env
    (docsValidServers env config.selectedServers) hsrc hvne
  have hdmem : d ∈ docsFilesToInstall env
      (docsValidServers env config.selectedServers) := by
    rw [hfiles]
    refine List.mem_filterMap.mpr ⟨t, htv, ?_⟩
    rw [hlkd]
    simp [hfe]
  have hfne : (docsFilesToInstall env
      (docsValidServers env config.selectedServers)).isEmpty = false := by
    cases hf : docsFilesToInstall env
        (docsValidServers env config.selectedServers) with
    | nil =>
      rw [hf] at hdmem
      exact absurd hdmem (List.not_mem_nil d)
    | cons a l => rfl
  have hfilter : (docsFilesToInstall env
        (docsValidServers env config.selectedServers)).filter env.copyOk
      = docsFilesToInstall env (docsValidServers env config.selectedServers) :=
    List.filter_eq_self.mpr (fun a _ => hcopy a)
  refine ⟨?_, ?_, ?_⟩
  · unfold docsInstall
    simp only [hvne, Bool.false_eq_true, if_false, hprereq, not_true_eq_false,
      hfne, hfilter, ne_eq, not_true_eq_false, if_true, hpost]
  · intro d2 hd2
    rw [hfiles] at hd2
    obtain ⟨s, -, hfs⟩ := List.mem_filterMap.mp hd2
    cases hlk2 : List.lookup s server_docs_map with
    | none =>
      rw [hlk2] at hfs
      exact Option.noConfusion hfs
    | some doc =>
      rw [hlk2] at hfs
      dsimp only at hfs
      by_cases hfe2 : env.fileExists doc = true
      · rw [if_pos hfe2] at hfs
        injection hfs with hfs
        subst hfs
        exact hfe2
      · rw [if_neg hfe2] at hfs
        exact Option.noConfusion hfs
  · intro s hs d2 hlk2 hfe2
    rw [hfiles]
    refine List.mem_filterMap.mpr ⟨s, hs, ?_⟩
    rw [hlk2]
    simp [hfe2]

/-- Concrete environment for the C9 witness: `MCP_Context7.md` exists but
`MCP_Magic.md` is missing. -/
def docsEnvC9 : DocsEnv :=
  { sourceDirExists := true
    fileExists := fun f => f == "MCP_Context7.md"
    copyOk := fun _ => true
    prereqOk := true
    postOk := true
    configKeys := []
    previousServers := [] }

/-- Witness for C9 (amended): selecting `magic` (file missing) and
`context7` (file present), the run succeeds, the missing `MCP_Magic.md` is
not scheduled, and `MCP_Context7.md` is installed. -/
theorem docs_missing_file_skipped_witness :
    docsInstall docsEnvC9 ⟨false, ["magic", "context7"]⟩ = true
    ∧ (∀ d ∈ docsFilesToInstall docsEnvC9
          (docsValidServers docsEnvC9 ["magic", "context7"]),
        docsEnvC9.fileExists d = true)
    ∧ "MCP_Context7.md" ∈ docsFilesToInstall docsEnvC9
        (docsValidServers docsEnvC9 ["magic", "context7"]) :=
  ⟨(docs_missing_file_skipped docsEnvC9 ⟨false, ["magic", "context7"]⟩ rfl rfl
      rfl (fun _ => rfl)
      ⟨"context7", by decide, "MCP_Context7.md", by decide, rfl⟩).1,
    (docs_missing_file_skipped docsEnvC9 ⟨false, ["magic", "context7"]⟩ rfl rfl
      rfl (fun _ => rfl)
      ⟨"context7", by decide, "MCP_Context7.md", by decide, rfl⟩).2.1,
    (docs_missing_file_skipped docsEnvC9 ⟨false, ["magic", "context7"]⟩ rfl rfl
      rfl (fun _ => rfl)
      ⟨"context7", by decide, "MCP_Context7.md", by decide, rfl⟩).2.2
      "context7" (by decide) "MCP_Context7.md" (by decide) rfl⟩

end SuperClaude
